import Mathlib

/-!
Verification of the `RugnarLodbrok/moviepy` metadata-extraction and
still-image-clip core against its natural-language specification.

The development shallowly embeds the two source files

  * `moviepy/video/ImageClip.py`            (EXIF `rotate` helper, `ImageClip`)
  * `moviepy/video/io/ffmpeg_parse_infos.py` (`ffmpeg_parse_infos` and its
    per-field parsers)

into Lean.  Python floats are modelled as `ℚ`, Python `int` as `ℤ`/`ℕ`,
fallible code as `Except String`/`Option`, and the specific regular
expressions of the source as explicit character-list scanners that follow
Python's leftmost-match, alternation-order and greedy/backtracking
semantics on the character classes actually used.  External subprocess
output (the ffmpeg diagnostic lines, the ffprobe frame-count probe) and
the external image decoder's result are passed in as explicit arguments.
-/

namespace MoviePy

/-! ## Character and string primitives -/

/-- Value of a list of decimal digit characters, most significant first
(the semantics of Python `int` on a digit string). -/
def digitsVal (cs : List Char) : ℕ :=
  cs.foldl (fun a c => 10 * a + (c.toNat - 48)) 0

/-- Boolean prefix test on character lists. -/
def isPrefixB : List Char → List Char → Bool
  | [], _ => true
  | _ :: _, [] => false
  | a :: as, b :: bs => a = b && isPrefixB as bs

/-- Python `pat in s` substring test. -/
def containsSub (pat : List Char) : List Char → Bool
  | [] => pat.isEmpty
  | c :: rest => isPrefixB pat (c :: rest) || containsSub pat rest

/-- Python `s.endswith(suffix)`. -/
def endsWithB (suffix s : List Char) : Bool :=
  isPrefixB suffix.reverse s.reverse

/-- Python `int(s)` on a string consisting of an optionally
space-surrounded run of digits (the only shapes reaching `int` in this
code base); `none` models `ValueError`. -/
def pyIntStrip (cs : List Char) : Option ℕ :=
  let t := ((cs.dropWhile (· = ' ')).reverse.dropWhile (· = ' ')).reverse
  if t ≠ [] ∧ t.all Char.isDigit then some (digitsVal t) else none

/-- Python `float(s)` restricted to the decimal shapes `d*`, `d*.d*`
produced by the frame-rate token scrapers; `none` models `ValueError`.
(Exponent and sign forms never reach `float` on parsable tokens here.) -/
def pyFloat (cs : List Char) : Option ℚ :=
  let intPart := cs.takeWhile Char.isDigit
  match cs.drop intPart.length with
  | [] => if intPart = [] then none else some (digitsVal intPart)
  | '.' :: frac =>
      if frac.all Char.isDigit ∧ (intPart ≠ [] ∨ frac ≠ []) then
        some ((digitsVal intPart : ℚ) + (digitsVal frac : ℚ) / (10 : ℚ) ^ frac.length)
      else none
  | _ => none

/-- Python `int(x)` on a float: truncation toward zero. -/
def pyTrunc (q : ℚ) : ℤ :=
  if 0 ≤ q then ⌊q⌋ else -⌊-q⌋

deriving instance DecidableEq for Except

/-! ## `moviepy/video/ImageClip.py` -/

/-- A decoded PIL image, kept opaque: `source` is the loader's output
together with its EXIF tag dictionary (tag id ↦ value), and `rotated`
records an application of `Image.rotate(degrees, expand=...)`. -/
inductive PILImage where
  | source (name : String) (exif : List (ℕ × ℕ))
  | rotated (degrees : ℕ) (expand : Bool) (im : PILImage)
deriving DecidableEq

/-- `im.getexif()`. -/
def PILImage.getexif : PILImage → List (ℕ × ℕ)
  | .source _ e => e
  | .rotated _ _ im => im.getexif

/-- The `ExifTags` index of the `Orientation` tag (the constant the
source looks up from `ExifTags.TAGS`). -/
def orientationTag : ℕ := 274

/-- `rotate` from `ImageClip.py`: EXIF-orientation workaround.  Empty
EXIF data returns the image unchanged; orientation 3 ↦ 180°,
6 ↦ 270°, 8 ↦ 90° (each with `expand=True`), anything else unchanged. -/
def rotate (im : PILImage) : PILImage :=
  let exif := im.getexif
  if exif = [] then im
  else
    let key := exif.lookup orientationTag
    if key = some 3 then .rotated 180 true im
    else if key = some 6 then .rotated 270 true im
    else if key = some 8 then .rotated 90 true im
    else im

/-- A numpy pixel buffer: 2-dimensional `(h, w)` or 3-dimensional
`(h, w, channels)`, with entries in `ℚ` (covers both uint8 images and
float masks). -/
inductive NDArray where
  | arr2 (h w : ℕ) (pix : ℕ → ℕ → ℚ)
  | arr3 (h w c : ℕ) (pix : ℕ → ℕ → ℕ → ℚ)

/-- `len(a.shape)`. -/
def NDArray.ndim : NDArray → ℕ
  | .arr2 .. => 2
  | .arr3 .. => 3

/-- `a.shape[:2][::-1]`, i.e. `(w, h)`. -/
def NDArray.sizeWH : NDArray → ℕ × ℕ
  | .arr2 h w _ => (w, h)
  | .arr3 h w _ _ => (w, h)

/-- An attached audio track.  Modelled from the spec: audio sub-clips
live in the clip framework outside `src/`; the spec describes them only
as genuinely time-varying attachments, so we keep a time-indexed
signal. -/
structure AudioS where
  sound : ℚ → ℚ

/-- Modelled from the spec: the base framework's generic
`Clip.time_transform` (outside `src/`) remaps a sub-clip's timeline by
the given time function. -/
def audioTimeTransform (time_func : ℚ → ℚ) (a : AudioS) : AudioS :=
  ⟨fun t => a.sound (time_func t)⟩

/-- The state an `ImageClip` instance carries after `__init__`:
`is_mask`/`duration` (set by `VideoClip.__init__`, which — modelled from
the spec — also starts with no attached mask and no attached audio),
`make_frame`, `size`, `img`, and the optional owned `mask` sub-clip and
`audio` attachment. -/
inductive ImageClipS where
  | mk (is_mask : Bool) (duration : Option ℚ) (make_frame : ℚ → NDArray)
       (size : ℕ × ℕ) (img : NDArray)
       (mask : Option ImageClipS) (audio : Option AudioS)

def ImageClipS.is_mask : ImageClipS → Bool | .mk b _ _ _ _ _ _ => b

def ImageClipS.duration : ImageClipS → Option ℚ | .mk _ d _ _ _ _ _ => d

def ImageClipS.make_frame : ImageClipS → (ℚ → NDArray) | .mk _ _ f _ _ _ _ => f

def ImageClipS.size : ImageClipS → ℕ × ℕ | .mk _ _ _ s _ _ _ => s

def ImageClipS.img : ImageClipS → NDArray | .mk _ _ _ _ i _ _ => i

def ImageClipS.mask : ImageClipS → Option ImageClipS | .mk _ _ _ _ _ m _ => m

def ImageClipS.audio : ImageClipS → Option AudioS | .mk _ _ _ _ _ _ a => a

/-- `ImageClip.__init__` on an already-decoded buffer (for a file path
the source first sets `img = imread(img)`; the decoder's output is the
`img` argument here, and no other processing of it happens on that
path).  Follows the channel-handling chain of the source: 4 channels
with `fromalpha` keeps channel 3 / 255; with `is_mask` keeps channel
0 / 255; with `transparent` splits channel 3 / 255 into an owned mask
clip and truncates to the first 3 channels; a non-4-channel
3-dimensional buffer in mask mode keeps channel 0 / 255; everything
else (including any 2-dimensional buffer) is stored unchanged. -/
def imageClipInit (img : NDArray) (is_mask transparent fromalpha : Bool)
    (duration : Option ℚ) : ImageClipS :=
  match img with
  | .arr2 h w pix =>
      .mk is_mask duration (fun _ => .arr2 h w pix) (w, h) (.arr2 h w pix) none none
  | .arr3 h w c pix =>
      if c = 4 then
        if fromalpha then
          let a := NDArray.arr2 h w (fun i j => 1 * pix i j 3 / 255)
          .mk is_mask duration (fun _ => a) (w, h) a none none
        else if is_mask then
          let a := NDArray.arr2 h w (fun i j => 1 * pix i j 0 / 255)
          .mk is_mask duration (fun _ => a) (w, h) a none none
        else if transparent then
          let maskClip :=
            imageClipInit (.arr2 h w (fun i j => 1 * pix i j 3 / 255)) true true false none
          let a := NDArray.arr3 h w 3 pix
          .mk is_mask duration (fun _ => a) (w, h) a (some maskClip) none
        else
          let a := NDArray.arr3 h w c pix
          .mk is_mask duration (fun _ => a) (w, h) a none none
      else if is_mask then
        let a := NDArray.arr2 h w (fun i j => 1 * pix i j 0 / 255)
        .mk is_mask duration (fun _ => a) (w, h) a none none
      else
        let a := NDArray.arr3 h w c pix
        .mk is_mask duration (fun _ => a) (w, h) a none none
termination_by img.ndim
decreasing_by simp [NDArray.ndim]

/-- `ImageClip.time_transform` with the default
`apply_to=["mask", "audio"]`: the `@outplace` decorator (outside `src/`,
modelled from the spec as returning a modified shallow copy) leaves every
own field alone, and the body only replaces the attached `mask` and
`audio` by their own time-transformed versions (the mask of an
`ImageClip` is itself an `ImageClip`, so its transform recurses here;
audio receives the generic timeline remap). -/
def imageClipTimeTransform (time_func : ℚ → ℚ) : ImageClipS → ImageClipS
  | .mk m d mf sz im mask audio =>
      .mk m d mf sz im
        (match mask with
         | some mc => some (imageClipTimeTransform time_func mc)
         | none => none)
        (audio.map (audioTimeTransform time_func))

/-! ## `moviepy/video/io/ffmpeg_parse_infos.py` — regex scanners

Each scanner is the explicit form of one `re` pattern of the source, with
Python's leftmost-match scan; on the character classes involved
(digit/dot runs followed by literals outside the class) greedy matching
needs no backtracking except in the `tbr` pattern, where the source's
alternation and star backtracking order is reproduced. -/

/-- Try `f` on `n, n-1, …, 0` in that order (regex backtracking order for
a greedy star whose maximal extent is `n`). -/
def findDesc (f : ℕ → Option α) : ℕ → Option α
  | 0 => f 0
  | n + 1 =>
      match f (n + 1) with
      | some r => some r
      | none => findDesc f n

/-- Match of `([0-9][0-9]:[0-9][0-9]:[0-9][0-9].[0-9][0-9])` at the head
of the list (the `.` is the regex wildcard), returning the timestamp
converted to seconds.  The conversion is modelled from the spec:
`convert_to_seconds` lives in `moviepy/tools.py`, outside `src/`; the
spec states the `HH:MM:SS.ff` timestamp is converted to seconds
(`"00:01:23.45"` ↦ `83.45`). -/
def tsMatchAt (cs : List Char) : Option ℚ :=
  match cs with
  | h1 :: h2 :: c1 :: m1 :: m2 :: c2 :: s1 :: s2 :: w :: f1 :: f2 :: _ =>
      if h1.isDigit ∧ h2.isDigit ∧ c1 = ':' ∧ m1.isDigit ∧ m2.isDigit ∧ c2 = ':'
          ∧ s1.isDigit ∧ s2.isDigit ∧ w ≠ '\n' ∧ f1.isDigit ∧ f2.isDigit then
        some ((digitsVal [h1, h2] : ℚ) * 3600 + (digitsVal [m1, m2] : ℚ) * 60
              + (digitsVal [s1, s2] : ℚ) + (digitsVal [f1, f2] : ℚ) / 100)
      else none
  | _ => none

/-- Leftmost timestamp match in a line (`re.findall(...)[0]` of the
source, converted). -/
def findTimestamp : List Char → Option ℚ
  | [] => none
  | c :: r =>
      match tsMatchAt (c :: r) with
      | some v => some v
      | none => findTimestamp r

/-- `re.search('\d+$', l)`: value of the maximal digit run ending the
line, `none` when the line does not end in a digit. -/
def searchTrailingDigits (cs : List Char) : Option ℕ :=
  let ds := (cs.reverse.takeWhile Char.isDigit).reverse
  if ds = [] then none else some (digitsVal ds)

/-- Digits group of the leftmost `" [0-9]* Hz"` match (possibly empty —
the star admits zero digits). -/
def hzMatchAt (cs : List Char) : Option (List Char) :=
  match cs with
  | ' ' :: r =>
      let ds := r.takeWhile Char.isDigit
      if isPrefixB (" Hz".data) (r.drop ds.length) then some ds else none
  | _ => none

def hzSearch : List Char → Option (List Char)
  | [] => none
  | c :: r =>
      match hzMatchAt (c :: r) with
      | some ds => some ds
      | none => hzSearch r

/-- Match of `" [0-9]*x[0-9]*(,| )"` at the head of the list, returning
the matched span (terminator included). -/
def matchSizeAt (cs : List Char) : Option (List Char) :=
  match cs with
  | ' ' :: r =>
      let ds := r.takeWhile Char.isDigit
      match r.drop ds.length with
      | 'x' :: r2 =>
          let es := r2.takeWhile Char.isDigit
          match r2.drop es.length with
          | t :: _ =>
              if t = ',' ∨ t = ' ' then some (' ' :: ds ++ 'x' :: es ++ [t]) else none
          | [] => none
      | _ => none
  | _ => none

/-- Leftmost `" [0-9]*x[0-9]*(,| )"` match in a line. -/
def searchSizeSpan : List Char → Option (List Char)
  | [] => none
  | c :: r =>
      match matchSizeAt (c :: r) with
      | some sp => some sp
      | none => searchSizeSpan r

/-- `re.search('\d+x\d+', l)` as a Boolean (the video-line detector). -/
def hasDxD : List Char → Bool
  | [] => false
  | c :: r =>
      (c.isDigit &&
        (let ds := r.takeWhile Char.isDigit
         match r.drop ds.length with
         | 'x' :: d :: _ => d.isDigit
         | _ => false)) || hasDxD r

/-- Match of `"( [0-9]*.| )[0-9]* tbr"` at the head of the list: branch
`" [0-9]*."` (space, digits, one wildcard) is preferred over `" "`, and
each star backtracks from its greedy maximum, later stars first — the
order `re` uses.  Returns the matched span. -/
def tbrMatchAt (cs : List Char) : Option (List Char) :=
  match cs with
  | ' ' :: r =>
      let tryA :=
        findDesc (fun a =>
          match r.drop a with
          | c :: r2 =>
              if c ≠ '\n' then
                findDesc (fun b =>
                  if isPrefixB (" tbr".data) (r2.drop b) then
                    some (' ' :: (r.take a ++ c :: (r2.take b ++ " tbr".data)))
                  else none) (r2.takeWhile Char.isDigit).length
              else none
          | [] => none) (r.takeWhile Char.isDigit).length
      match tryA with
      | some sp => some sp
      | none =>
          findDesc (fun b =>
            if isPrefixB (" tbr".data) (r.drop b) then
              some (' ' :: (r.take b ++ " tbr".data))
            else none) (r.takeWhile Char.isDigit).length
  | _ => none

/-- Leftmost match of the `tbr` pattern in a line. -/
def tbrSearch : List Char → Option (List Char)
  | [] => none
  | c :: r =>
      match tbrMatchAt (c :: r) with
      | some sp => some sp
      | none => tbrSearch r

/-- Match of `" ([0-9.]+)(k?) fps"` at the head of the list: the
digits-and-dots group together with whether the optional `k` was
taken. -/
def fpsMatchAt (cs : List Char) : Option (List Char × Bool) :=
  match cs with
  | ' ' :: r =>
      let g := r.takeWhile (fun c => c.isDigit || c = '.')
      if g = [] then none
      else
        match r.drop g.length with
        | 'k' :: r2 => if isPrefixB (" fps".data) r2 then some (g, true) else none
        | rest => if isPrefixB (" fps".data) rest then some (g, false) else none
  | _ => none

/-- Leftmost match of the `fps` pattern in a line. -/
def fpsSearch : List Char → Option (List Char × Bool)
  | [] => none
  | c :: r =>
      match fpsMatchAt (c :: r) with
      | some m => some m
      | none => fpsSearch r

/-! ## `ffmpeg_parse_infos.py` — parsers -/

/-- `get_tbr` of `parse_video_fps`: take `split(' ')[1]` of the matched
span (the token after the leading space), handle a `k` suffix as ×1000,
and `float` it; `none` models the caught exception (no match, or
`float` failure). -/
def get_tbr (line : String) : Option ℚ :=
  match tbrSearch line.data with
  | none => none
  | some sp =>
      let s_tbr := (sp.drop 1).takeWhile (fun c => c ≠ ' ')
      if s_tbr.any (fun c => c = 'k') then
        (pyFloat (s_tbr.filter (fun c => c ≠ 'k'))).map (fun q => q * 1000)
      else pyFloat s_tbr

/-- `get_fps` of `parse_video_fps`: `float` of group 1, ×1000 when
group 2 is `k`; `none` models the caught exception. -/
def get_fps (line : String) : Option ℚ :=
  match fpsSearch line.data with
  | none => none
  | some (g, k) =>
      match pyFloat g with
      | none => none
      | some v => some (if k then v * 1000 else v)

/-- Python truthiness of an optional float (`None` and `0.0` are
falsy). -/
def pyTruthy : Option ℚ → Bool
  | none => false
  | some v => v ≠ 0

/-- Unwrap an optional float where the source has already checked
truthiness. -/
def pyVal : Option ℚ → ℚ
  | none => 0
  | some v => v

/-- `parse_video_fps`: extract both rate indicators (failures caught and
logged), order them by `fps_source` (`KeyError` otherwise), then take
the first of primary/fallback that is truthy and `≤ 1e3`, else 30. -/
def parse_video_fps (line : String) (fps_source : String) : Except String ℚ :=
  let fps_by_tbr := get_tbr line
  let fps_by_fps := get_fps line
  match (if fps_source = "tbr" then some (fps_by_tbr, fps_by_fps)
         else if fps_source = "fps" then some (fps_by_fps, fps_by_tbr)
         else none) with
  | none => .error ("KeyError: " ++ fps_source)
  | some (primary_fps, fallback_fps) =>
      if pyTruthy primary_fps ∧ pyVal primary_fps ≤ 1000 then .ok (pyVal primary_fps)
      else if pyTruthy fallback_fps ∧ pyVal fallback_fps ≤ 1000 then .ok (pyVal fallback_fps)
      else .ok 30

/-- Python `abs` on a float. -/
def pyAbs (q : ℚ) : ℚ :=
  if q < 0 then -q else q

/-- `roughly_equal(a, b)` with the default `epsilon=0.01`. -/
def roughly_equal (a b : ℚ) : Bool :=
  decide (pyAbs (a / b - 1) < 1 / 100)

/-- The loop of `adjust_fps` over `[23, 24, 25, 30, 50]`. -/
def adjust_fps_loop (coef fps : ℚ) : List ℚ → ℚ
  | [] => fps
  | x :: xs =>
      if fps ≠ x ∧ roughly_equal fps (x * coef) = true then x * coef
      else adjust_fps_loop coef fps xs

/-- `adjust_fps`: snap a rate to `x * 1000/1001` when it is roughly
equal to it (and differs from the integer `x` itself). -/
def adjust_fps (fps : ℚ) : ℚ :=
  adjust_fps_loop (1000 / 1001) fps [23, 24, 25, 30, 50]

/-- The value stored in the `audio_fps` field: the dataclass default
`'unknown'`, Python `None` (what `parse_audio_infos` yields on a missing
or unparsable sample-rate token), or a parsed rate in Hz. -/
inductive AudioFps where
  | unknown
  | pynone
  | hz (n : ℕ)
deriving DecidableEq

/-- `parse_audio_infos`: audio is present iff a line contains
`" Audio: "`; the sample rate comes from the leftmost `" [0-9]* Hz"`
token of the first such line, with any failure (no match, or `int` on an
empty digit group) caught and left as `None`. -/
def parse_audio_infos (lines : List String) : Bool × AudioFps :=
  match lines.filter (fun l => containsSub (" Audio: ".data) l.data) with
  | [] => (false, .pynone)
  | l :: _ =>
      match hzSearch l.data with
      | some ds =>
          match pyIntStrip ds with
          | some n => (true, .hz n)
          | none => (true, .pynone)
      | none => (true, .pynone)

/-- The rotation-marker literal of the source
(`'rotate'`, ten spaces, `':'`). -/
def rotationMarker : List Char := "rotate          :".data

/-- `parse_rotation`: keep the lines containing the rotation marker AND
ending in digits; the first such line's trailing integer is the
rotation, no such line means 0.  The source's `except` branch (reached
only if the trailing-integer extraction failed on a line the filter
already required to end in digits) raises an `IOError`. -/
def parse_rotation (lines : List String) : Except String ℤ :=
  match lines.filter
      (fun l => containsSub rotationMarker l.data
                && (searchTrailingDigits l.data).isSome) with
  | [] => .ok 0
  | l :: _ =>
      match searchTrailingDigits l.data with
      | some n => .ok (n : ℤ)
      | none =>
          .error ("MoviePy error: failed to read video rotation in file.\n"
                  ++ "Here are the file infos returned by ffmpeg:\n\n" ++ l)

/-- `parse_video_size`: leftmost `" [0-9]*x[0-9]*(,| )"` match, split at
`x` after removing the terminator, `int` both halves; any failure (no
match, or `int` on an empty half) raises the dimensions `IOError`. -/
def parse_video_size (line : String) : Except String (ℕ × ℕ) :=
  match searchSizeSpan line.data with
  | none =>
      .error ("MoviePy error: failed to read video dimensions in file.\n"
              ++ "Here are the file infos returned by ffmpeg:\n\n" ++ line)
  | some sp =>
      let body := sp.dropLast
      let s0 := body.takeWhile (fun c => c ≠ 'x')
      let s1 := body.drop (s0.length + 1)
      match pyIntStrip s0, pyIntStrip s1 with
      | some a, some b => .ok (a, b)
      | _, _ =>
          .error ("MoviePy error: failed to read video dimensions in file.\n"
                  ++ "Here are the file infos returned by ffmpeg:\n\n" ++ line)

/-- The duration keyword: `'frame='` for GIF-like input, `'Duration: '`
otherwise. -/
def durationKeyword (is_GIF : Bool) : List Char :=
  if is_GIF then "frame=".data else "Duration: ".data

/-- `parse_duration`: select the first (`[0]`) — or, for GIF-like input,
the last (`[-1]`) — line containing the duration keyword; indexing an
empty selection raises `IndexError`.  The leftmost `HH:MM:SS.ff`
timestamp of that line is converted to seconds; no timestamp yields 0. -/
def parse_duration (is_GIF : Bool) (lines : List String) : Except String ℚ :=
  match lines.filter (fun l => containsSub (durationKeyword is_GIF) l.data) with
  | [] => .error "IndexError: list index out of range"
  | l :: t =>
      let line := if is_GIF then (l :: t).getLast (List.cons_ne_nil l t) else l
      match findTimestamp line.data with
      | some v => .ok v
      | none => .ok 0

/-- A line is a video-stream line when it contains `' Video: '` and a
`WIDTHxHEIGHT` digit token. -/
def isVideoLine (l : String) : Bool :=
  containsSub (" Video: ".data) l.data && hasDxD l.data

/-- The `VideoMetaData` dataclass. -/
structure VideoMetaData where
  duration : Option ℚ
  size : Option (ℕ × ℕ)
  video_found : Bool
  video_fps : Option ℚ
  video_n_frames : Option ℤ
  video_duration : Option ℚ
  video_rotation : ℤ
  video_size : Option (ℕ × ℕ)
  audio_found : Bool
  audio_fps : AudioFps
deriving DecidableEq

/-- The dataclass defaults of `VideoMetaData`. -/
def VideoMetaData.default : VideoMetaData :=
  ⟨none, none, false, none, none, none, 0, none, false, .unknown⟩

/-- `ffmpeg_parse_infos`, with the two external subprocess results
supplied as arguments: `lines` is `get_raw_metadata(filename).splitlines()`
and `alt` is the `(fps, n_frames)` pair of `get_alt_fps_n_frames`
(consulted only when a video stream is found but the parsed duration is
falsy; a zero probe rate makes the source's `n_frames / fps` raise
`ZeroDivisionError`).  The flow is that of the source: parse duration
(its `IndexError` propagates), detect video lines, fill the video fields
on the first video line — frame count from the raw rate, the stored rate
then run through `adjust_fps` —, parse size and rotation, then audio. -/
def ffmpeg_parse_infos (filename : String) (lines : List String)
    (alt : ℚ × ℕ) (fps_source : String) : Except String VideoMetaData :=
  match parse_duration (endsWithB (".gif".data) filename.data) lines with
  | .error e => .error e
  | .ok duration =>
      match lines.filter isVideoLine with
      | [] =>
          let (audio_found, audio_fps) := parse_audio_infos lines
          .ok ⟨some duration, none, false, none, none, none, 0, none,
               audio_found, audio_fps⟩
      | lv :: _ =>
          let step : Except String (ℚ × ℚ × ℤ × ℚ) :=
            if duration = 0 then
              if alt.1 = 0 then .error "ZeroDivisionError: division by zero"
              else .ok ((alt.2 : ℚ) / alt.1, alt.1, (alt.2 : ℤ), (alt.2 : ℚ) / alt.1)
            else
              match parse_video_fps lv fps_source with
              | .error e => .error e
              | .ok fps => .ok (duration, fps, pyTrunc (duration * fps) + 1, duration)
          match step with
          | .error e => .error e
          | .ok (dur2, fps_raw, n_frames, video_duration) =>
              match parse_video_size lv with
              | .error e => .error e
              | .ok video_size =>
                  match parse_rotation lines with
                  | .error e => .error e
                  | .ok video_rotation =>
                      let (audio_found, audio_fps) := parse_audio_infos lines
                      .ok ⟨some dur2, none, true, some (adjust_fps fps_raw),
                           some n_frames, some video_duration, video_rotation,
                           some video_size, audio_found, audio_fps⟩

/-- `Except` result is an error. -/
def isErr : Except String α → Bool
  | .error _ => true
  | .ok _ => false

/-- A rate indicator the selection chain of `parse_video_fps` passes
over: absent, zero (falsy) or above the `1e3` sanity bound. -/
def rateInvalid (o : Option ℚ) : Prop :=
  o = none ∨ ∃ v, o = some v ∧ (v = 0 ∨ 1000 < v)

/-! ## Theorems -/

/-- C8: constructing an `ImageClip` from a 4-channel 3-dimensional
buffer with default options (`transparent=True`, `is_mask=False`,
`fromalpha=False`) stores the first 3 channels as the main buffer and
attaches a derived mask clip, flagged `is_mask=True`, whose 2-dimensional
buffer is the input's channel 3 divided by 255 at every pixel. -/
theorem imageclip_transparent_alpha_split (h w : ℕ) (pix : ℕ → ℕ → ℕ → ℚ)
    (d : Option ℚ) :
    (imageClipInit (.arr3 h w 4 pix) false true false d).img = NDArray.arr3 h w 3 pix
    ∧ ∃ m, (imageClipInit (.arr3 h w 4 pix) false true false d).mask = some m
        ∧ m.is_mask = true
        ∧ m.img = NDArray.arr2 h w (fun i j => pix i j 3 / 255) := by
  constructor
  · simp [imageClipInit, ImageClipS.img]
  · refine ⟨.mk true none
      (fun _ => .arr2 h w (fun i j => 1 * pix i j 3 / 255)) (w, h)
      (.arr2 h w (fun i j => 1 * pix i j 3 / 255)) none none, ?_, rfl, ?_⟩
    · simp [imageClipInit, ImageClipS.mask]
    · show NDArray.arr2 h w (fun i j => 1 * pix i j 3 / 255)
        = NDArray.arr2 h w (fun i j => pix i j 3 / 255)
      norm_num

/-- C9: `time_transform` on an `ImageClip` (default
`apply_to=["mask", "audio"]`) leaves the clip's own frame production,
`img` buffer and `size` unchanged for every time-remapping function —
`make_frame t` is the same image for all `t` — and only the attached
mask and audio sub-clips, when present, receive the transform. -/
theorem imageclip_time_transform_noop (c : ImageClipS) (tf : ℚ → ℚ) :
    (imageClipTimeTransform tf c).make_frame = c.make_frame
    ∧ (∀ t, (imageClipTimeTransform tf c).make_frame t = c.make_frame t)
    ∧ (imageClipTimeTransform tf c).img = c.img
    ∧ (imageClipTimeTransform tf c).size = c.size
    ∧ (imageClipTimeTransform tf c).is_mask = c.is_mask
    ∧ (imageClipTimeTransform tf c).duration = c.duration
    ∧ (imageClipTimeTransform tf c).mask = c.mask.map (imageClipTimeTransform tf)
    ∧ (imageClipTimeTransform tf c).audio = c.audio.map (audioTimeTransform tf) := by
  obtain ⟨m, d, mf, sz, im, mask, audio⟩ := c
  rw [imageClipTimeTransform.eq_def]
  refine ⟨rfl, fun _ => rfl, rfl, rfl, rfl, rfl, ?_, rfl⟩
  cases mask <;> rfl

/-- C1: the `rotate` helper implements the claimed EXIF mapping
(orientation 3 ↦ 180°, 6 ↦ 270° with expansion, 8 ↦ 90° with expansion,
any other or missing orientation unchanged), but `ImageClip.__init__`
never invokes it: on the file-path route the constructor stores the
decoder's output buffer as-is (here shown for any non-4-channel decoded
buffer with the default flags), so no EXIF-orientation correction is
applied during construction. -/
theorem exif_rotate_defined_but_unused_in_init :
    (∀ im : PILImage,
      (im.getexif = [] → rotate im = im)
      ∧ (im.getexif ≠ [] → im.getexif.lookup orientationTag = some 3 →
          rotate im = .rotated 180 true im)
      ∧ (im.getexif ≠ [] → im.getexif.lookup orientationTag = some 6 →
          rotate im = .rotated 270 true im)
      ∧ (im.getexif ≠ [] → im.getexif.lookup orientationTag = some 8 →
          rotate im = .rotated 90 true im)
      ∧ (im.getexif.lookup orientationTag = none → rotate im = im)
      ∧ (∀ k, im.getexif.lookup orientationTag = some k →
          k ≠ 3 → k ≠ 6 → k ≠ 8 → rotate im = im))
    ∧ (∀ (h w c : ℕ) (pix : ℕ → ℕ → ℕ → ℚ) (d : Option ℚ), c ≠ 4 →
        (imageClipInit (.arr3 h w c pix) false true false d).img
          = NDArray.arr3 h w c pix) := by
  constructor
  · intro im
    refine ⟨?_, ?_, ?_, ?_, ?_, ?_⟩
    · intro he; simp [rotate, he]
    · intro hne h3; simp [rotate, hne, h3]
    · intro hne h6; simp [rotate, hne, h6]
    · intro hne h8; simp [rotate, hne, h8]
    · intro hnone
      by_cases he : im.getexif = []
      · simp [rotate, he]
      · simp [rotate, he, hnone]
    · intro k hk hk3 hk6 hk8
      by_cases he : im.getexif = []
      · simp [rotate, he]
      · simp [rotate, he, hk, hk3, hk6, hk8]
  · intro h w c pix d hc
    simp [imageClipInit, hc, ImageClipS.img]

/-- `parse_rotation` never returns an error: every line its filter keeps
ends in digits, so the trailing-integer extraction always succeeds. -/
theorem parse_rotation_total (lines : List String) :
    ∃ n, parse_rotation lines = .ok n := by
  unfold parse_rotation
  cases hf : lines.filter
      (fun l => containsSub rotationMarker l.data
                && (searchTrailingDigits l.data).isSome) with
  | nil => exact ⟨0, rfl⟩
  | cons l t =>
      have hl : l ∈ lines.filter
          (fun l => containsSub rotationMarker l.data
                    && (searchTrailingDigits l.data).isSome) := by
        rw [hf]; exact List.mem_cons_self l t
      have hp := (List.mem_filter.mp hl).2
      rw [Bool.and_eq_true] at hp
      obtain ⟨n, hn⟩ := Option.isSome_iff_exists.mp hp.2
      exact ⟨(n : ℤ), by simp [hn]⟩

/-- C2 counterexample: with no line containing the duration keyword the
source indexes an empty list, so extraction fails with an `IndexError`
instead of returning a zero duration. -/
theorem parse_duration_no_keyword_raises :
    containsSub ("Duration: ".data) "foo".data = false
    ∧ isErr (parse_duration false ["foo"]) = true
    ∧ isErr (ffmpeg_parse_infos "a.mp4" ["foo"] (1, 1) "tbr") = true := by
  decide

/-- C2 (amended): when no line contains the duration keyword,
`parse_duration` raises an `IndexError` (extraction fails); the
zero-duration fallback applies only when a keyword line exists but no
`HH:MM:SS.ff` timestamp occurs in the selected line. -/
theorem parse_duration_keyword_behaviour (gif : Bool) (lines : List String) :
    (lines.filter (fun l => containsSub (durationKeyword gif) l.data) = [] →
      isErr (parse_duration gif lines) = true)
    ∧ (lines.filter (fun l => containsSub (durationKeyword gif) l.data) ≠ [] →
      (∀ l ∈ lines, findTimestamp l.data = none) →
      parse_duration gif lines = .ok 0) := by
  constructor
  · intro h
    unfold parse_duration
    rw [h]
    rfl
  · intro hne hts
    cases hfilter : lines.filter
        (fun l => containsSub (durationKeyword gif) l.data) with
    | nil => exact absurd hfilter hne
    | cons l t =>
        have hsub : ∀ x ∈ l :: t, x ∈ lines := by
          intro x hx
          have : x ∈ lines.filter
              (fun l => containsSub (durationKeyword gif) l.data) := by
            rw [hfilter]; exact hx
          exact (List.mem_filter.mp this).1
        have hline : (if gif then (l :: t).getLast (List.cons_ne_nil l t) else l)
            ∈ lines := by
          cases gif with
          | true => exact hsub _ (by simp [List.getLast_mem (List.cons_ne_nil l t)])
          | false => exact hsub _ (List.mem_cons_self l t)
        simp only [parse_duration, hfilter]
        rw [hts _ hline]

/-- Witness for C2's theorem: a keyword line with no timestamp parses to
a zero duration. -/
theorem parse_duration_no_timestamp_zero :
    parse_duration false ["Duration: N/A"] = .ok 0 :=
  (parse_duration_keyword_behaviour false ["Duration: N/A"]).2 (by decide) (by decide)

/-- C3 counterexample: a line carrying the rotation marker whose trailing
text is not an integer is dropped by the filter, so `parse_rotation`
returns 0 instead of the claimed fatal I/O parse error. -/
theorem parse_rotation_unparsable_is_zero :
    containsSub rotationMarker ("rotate          : abc".data) = true
    ∧ searchTrailingDigits ("rotate          : abc".data) = none
    ∧ parse_rotation ["rotate          : abc"] = .ok 0 := by
  decide

/-- C3 (amended): `parse_rotation` never fails; when no line contains the
rotation marker the result is 0, and a line containing the marker but no
trailing integer is ignored by the filter (so marker lines with
unparsable trailing text also yield 0 — the fatal branch is
unreachable). -/
theorem parse_rotation_behaviour (lines : List String) :
    (∃ n, parse_rotation lines = .ok n)
    ∧ ((∀ l ∈ lines, containsSub rotationMarker l.data = false) →
        parse_rotation lines = .ok 0)
    ∧ ((∀ l ∈ lines, containsSub rotationMarker l.data = true →
          searchTrailingDigits l.data = none) →
        parse_rotation lines = .ok 0) := by
  refine ⟨parse_rotation_total lines, ?_, ?_⟩
  · intro h
    have hf : lines.filter
        (fun l => containsSub rotationMarker l.data
                  && (searchTrailingDigits l.data).isSome) = [] := by
      rw [List.filter_eq_nil_iff]
      intro l hl
      simp [h l hl]
    unfold parse_rotation
    rw [hf]
  · intro h
    have hf : lines.filter
        (fun l => containsSub rotationMarker l.data
                  && (searchTrailingDigits l.data).isSome) = [] := by
      rw [List.filter_eq_nil_iff]
      intro l hl
      by_cases hm : containsSub rotationMarker l.data = true
      · simp [hm, h l hl hm]
      · simp [Bool.eq_false_iff.mpr hm]
    unfold parse_rotation
    rw [hf]

/-- Witness for C3's theorem: no marker line at all yields rotation 0. -/
theorem parse_rotation_absent_zero :
    parse_rotation ["hello"] = .ok 0 :=
  (parse_rotation_behaviour ["hello"]).2.1 (by decide)

/-- With `fps_source = "tbr"` the selection chain of `parse_video_fps`
reduces to its tbr-primary form. -/
theorem parse_video_fps_tbr_eq (line : String) :
    parse_video_fps line "tbr" =
      (if pyTruthy (get_tbr line) ∧ pyVal (get_tbr line) ≤ 1000 then
        .ok (pyVal (get_tbr line))
      else if pyTruthy (get_fps line) ∧ pyVal (get_fps line) ≤ 1000 then
        .ok (pyVal (get_fps line))
      else .ok 30) := rfl

/-- A rate the chain passes over never satisfies its guard. -/
theorem rate_invalid_guard (o : Option ℚ) (h : rateInvalid o) :
    ¬(pyTruthy o ∧ pyVal o ≤ 1000) := by
  rcases h with h | ⟨v, hv, hz | hgt⟩
  · subst h; rintro ⟨ht, -⟩; simp [pyTruthy] at ht
  · subst hv hz; rintro ⟨ht, -⟩; simp [pyTruthy] at ht
  · subst hv; rintro ⟨-, hle⟩; simp [pyVal] at hle; linarith

/-- C5 counterexample: a tbr token that parses to 0 (present, `≤ 1000`)
is skipped by Python truthiness — `parse_video_fps` returns the fps
value 25 instead of the claimed tbr value. -/
theorem parse_video_fps_zero_tbr_skipped :
    get_tbr " 0 tbr, 25 fps" = some 0
    ∧ ((0 : ℚ) ≤ 1000)
    ∧ parse_video_fps " 0 tbr, 25 fps" "tbr" = .ok 25
    ∧ parse_video_fps " 0 tbr, 25 fps" "tbr" ≠ .ok 0 := by
  refine ⟨by decide, by norm_num, by decide, by decide⟩

/-- C5 (amended): with `fps_source = "tbr"`, a tbr token parsing to a
nonzero value at most 1000 is the result; when tbr is absent, zero
(falsy), or above 1000 and fps parses to a nonzero value at most 1000,
the fps value is the result; when both are absent/invalid the result is
exactly 30 — and the function never fails on any line. -/
theorem parse_video_fps_tbr_policy (line : String) :
    (∀ v : ℚ, get_tbr line = some v → v ≠ 0 → v ≤ 1000 →
      parse_video_fps line "tbr" = .ok v)
    ∧ (∀ w : ℚ, rateInvalid (get_tbr line) → get_fps line = some w → w ≠ 0 →
        w ≤ 1000 → parse_video_fps line "tbr" = .ok w)
    ∧ (rateInvalid (get_tbr line) → rateInvalid (get_fps line) →
        parse_video_fps line "tbr" = .ok 30)
    ∧ (∃ v, parse_video_fps line "tbr" = .ok v) := by
  refine ⟨?_, ?_, ?_, ?_⟩
  · intro v hv hne hle
    rw [parse_video_fps_tbr_eq, hv, if_pos ⟨by simp [pyTruthy, hne], by simp [pyVal, hle]⟩]
    simp [pyVal]
  · intro w htbr hw hne hle
    rw [parse_video_fps_tbr_eq, if_neg (rate_invalid_guard _ htbr), hw,
      if_pos ⟨by simp [pyTruthy, hne], by simp [pyVal, hle]⟩]
    simp [pyVal]
  · intro htbr hfps
    rw [parse_video_fps_tbr_eq, if_neg (rate_invalid_guard _ htbr),
      if_neg (rate_invalid_guard _ hfps)]
  · rw [parse_video_fps_tbr_eq]
    split
    · exact ⟨_, rfl⟩
    · split
      · exact ⟨_, rfl⟩
      · exact ⟨_, rfl⟩

/-- Witness for C5's theorem at a line with a valid tbr token. -/
theorem parse_video_fps_tbr_instance :
    get_tbr " 500 tbr" = some 500 ∧ parse_video_fps " 500 tbr" "tbr" = .ok 500 :=
  ⟨by decide,
   (parse_video_fps_tbr_policy " 500 tbr").1 500 (by decide) (by decide) (by decide)⟩

/-- `roughly_equal fps b` (for positive `b`) is the open 1%-relative
window around `b`. -/
theorem pyAbs_eq_abs (q : ℚ) : pyAbs q = |q| := by
  by_cases h : q < 0
  · rw [pyAbs, if_pos h, abs_of_neg h]
  · rw [pyAbs, if_neg h, abs_of_nonneg (le_of_not_lt h)]

theorem roughly_window (fps b : ℚ) (hb : 0 < b) :
    roughly_equal fps b = true ↔ (99 / 100) * b < fps ∧ fps < (101 / 100) * b := by
  unfold roughly_equal
  rw [decide_eq_true_eq, pyAbs_eq_abs, abs_lt]
  constructor
  · rintro ⟨h1, h2⟩
    refine ⟨(lt_div_iff₀ hb).mp (by linarith), (div_lt_iff₀ hb).mp (by linarith)⟩
  · rintro ⟨h1, h2⟩
    have ha := (lt_div_iff₀ hb).mpr h1
    have hc := (div_lt_iff₀ hb).mpr h2
    constructor <;> linarith

/-- The snapping windows of the five broadcast rates are pairwise
disjoint. -/
theorem roughly_snap_disjoint (fps : ℚ) :
    ∀ x ∈ ([23, 24, 25, 30, 50] : List ℚ), ∀ y ∈ ([23, 24, 25, 30, 50] : List ℚ),
      x ≠ y → roughly_equal fps (x * (1000 / 1001)) = true →
      roughly_equal fps (y * (1000 / 1001)) = false := by
  intro x hx y hy hxy hr
  by_contra hny
  rw [Bool.not_eq_false] at hny
  fin_cases hx <;> fin_cases hy <;>
    first
      | exact absurd rfl hxy
      | (rw [roughly_window _ _ (by norm_num)] at hr hny
         obtain ⟨a1, a2⟩ := hr
         obtain ⟨b1, b2⟩ := hny
         norm_num at a1 a2 b1 b2
         linarith)

/-- The `adjust_fps` loop returns `fps` when no list entry fires. -/
theorem adjust_loop_skips (coef fps : ℚ) (ys : List ℚ)
    (h : ∀ y ∈ ys, ¬(fps ≠ y ∧ roughly_equal fps (y * coef) = true)) :
    adjust_fps_loop coef fps ys = fps := by
  induction ys with
  | nil => rfl
  | cons a as ih =>
      rw [adjust_fps_loop, if_neg (h a (List.mem_cons_self a as))]
      exact ih (fun y hy => h y (List.mem_cons_of_mem a hy))

/-- The `adjust_fps` loop returns `x * coef` at the first entry `x` that
fires. -/
theorem adjust_loop_first (coef fps : ℚ) (as bs : List ℚ) (x : ℚ)
    (ha : ∀ a ∈ as, ¬(fps ≠ a ∧ roughly_equal fps (a * coef) = true))
    (hx : fps ≠ x ∧ roughly_equal fps (x * coef) = true) :
    adjust_fps_loop coef fps (as ++ x :: bs) = x * coef := by
  induction as with
  | nil => rw [List.nil_append, adjust_fps_loop, if_pos hx]
  | cons a as ih =>
      rw [List.cons_append, adjust_fps_loop,
        if_neg (ha a (List.mem_cons_self a as))]
      exact ih (fun y hy => ha y (List.mem_cons_of_mem a hy))

/-- C6: every rate in the 1%-relative window of `x * 1000/1001` for
`x ∈ {23, 24, 25, 30, 50}` — except a rate exactly equal to the integer
`x` itself — is snapped to exactly `x * 1000/1001`; a rate equal to one
of the integers is returned unchanged, and a rate in no window is
returned unchanged. -/
theorem adjust_fps_snapping (fps : ℚ) :
    (∀ x ∈ ([23, 24, 25, 30, 50] : List ℚ),
      roughly_equal fps (x * (1000 / 1001)) = true → fps ≠ x →
      adjust_fps fps = x * (1000 / 1001))
    ∧ (fps ∈ ([23, 24, 25, 30, 50] : List ℚ) → adjust_fps fps = fps)
    ∧ ((∀ x ∈ ([23, 24, 25, 30, 50] : List ℚ),
        roughly_equal fps (x * (1000 / 1001)) = false) → adjust_fps fps = fps) := by
  refine ⟨?_, ?_, ?_⟩
  · intro x hx hr hne
    have hdisj : ∀ y ∈ ([23, 24, 25, 30, 50] : List ℚ), y ≠ x →
        ¬(fps ≠ y ∧ roughly_equal fps (y * (1000 / 1001)) = true) := by
      intro y hy hyx hc
      have h2 := hc.2
      rw [roughly_snap_disjoint fps x hx y hy (fun h => hyx h.symm) hr] at h2
      exact Bool.noConfusion h2
    fin_cases hx
    · exact adjust_loop_first _ fps [] [24, 25, 30, 50] 23 (by simp) ⟨hne, hr⟩
    · refine adjust_loop_first _ fps [23] [25, 30, 50] 24 ?_ ⟨hne, hr⟩
      intro a hamem
      fin_cases hamem
      exact hdisj 23 (by simp) (by norm_num)
    · refine adjust_loop_first _ fps [23, 24] [30, 50] 25 ?_ ⟨hne, hr⟩
      intro a hamem
      fin_cases hamem
      · exact hdisj 23 (by simp) (by norm_num)
      · exact hdisj 24 (by simp) (by norm_num)
    · refine adjust_loop_first _ fps [23, 24, 25] [50] 30 ?_ ⟨hne, hr⟩
      intro a hamem
      fin_cases hamem
      · exact hdisj 23 (by simp) (by norm_num)
      · exact hdisj 24 (by simp) (by norm_num)
      · exact hdisj 25 (by simp) (by norm_num)
    · refine adjust_loop_first _ fps [23, 24, 25, 30] [] 50 ?_ ⟨hne, hr⟩
      intro a hamem
      fin_cases hamem
      · exact hdisj 23 (by simp) (by norm_num)
      · exact hdisj 24 (by simp) (by norm_num)
      · exact hdisj 25 (by simp) (by norm_num)
      · exact hdisj 30 (by simp) (by norm_num)
  · intro hmem
    fin_cases hmem <;>
    · refine adjust_loop_skips _ _ _ ?_
      intro y hy
      fin_cases hy <;>
        · rintro ⟨hne', hr⟩
          first
            | exact hne' rfl
            | (rw [roughly_window _ _ (by norm_num)] at hr; norm_num at hr)
  · intro hall
    refine adjust_loop_skips _ fps _ (fun y hy hc => ?_)
    have := hc.2
    rw [hall y hy] at this
    exact Bool.noConfusion this

/-- Witness for C6's theorem: 23.98 lies in the window of
`24 * 1000/1001` and is snapped to it. -/
theorem adjust_fps_snapping_instance :
    roughly_equal (2398 / 100 : ℚ) (24 * (1000 / 1001)) = true
    ∧ ((2398 / 100 : ℚ) ≠ 24)
    ∧ adjust_fps (2398 / 100) = 24 * (1000 / 1001) :=
  have hw : roughly_equal (2398 / 100 : ℚ) (24 * (1000 / 1001)) = true := by
    rw [roughly_window _ _ (by norm_num)]; norm_num
  ⟨hw, by norm_num,
   (adjust_fps_snapping (2398 / 100)).1 24 (by simp) hw (by norm_num)⟩

/-- When no `' Audio: '` line exists, `parse_audio_infos` reports
`(False, None)`. -/
theorem parse_audio_not_found (lines : List String) (af : Bool) (afps : AudioFps)
    (h : parse_audio_infos lines = (af, afps)) (hf : af = false) :
    afps = .pynone := by
  subst hf
  unfold parse_audio_infos at h
  split at h
  · simp only [Prod.mk.injEq] at h
    exact h.2.symm
  · split at h
    · split at h <;> simp at h
    · simp at h

/-- When no line carries an `" [0-9]* Hz"` match, the parsed sample rate
is `None`. -/
theorem parse_audio_no_hz (lines : List String) (af : Bool) (afps : AudioFps)
    (h : parse_audio_infos lines = (af, afps))
    (hz : ∀ l ∈ lines, hzSearch l.data = none) : afps = .pynone := by
  unfold parse_audio_infos at h
  split at h
  · simp only [Prod.mk.injEq] at h
    exact h.2.symm
  · rename_i l t hfil
    have hl : l ∈ lines := by
      have : l ∈ lines.filter (fun l => containsSub (" Audio: ".data) l.data) := by
        rw [hfil]; exact List.mem_cons_self l t
      exact (List.mem_filter.mp this).1
    rw [hz l hl] at h
    simp only [Prod.mk.injEq] at h
    exact h.2.symm

/-- C4 counterexample: after extraction with no audio line, `audio_fps`
has been overwritten with `None` — the `'unknown'` dataclass sentinel
does not survive, contradicting the claimed invariant. -/
theorem audio_fps_sentinel_overwritten :
    ffmpeg_parse_infos "a.mp4" ["Duration: N/A"] (1, 1) "tbr"
      = .ok ⟨some 0, none, false, none, none, none, 0, none, false, .pynone⟩
    ∧ AudioFps.pynone ≠ AudioFps.unknown := by
  refine ⟨by decide, by decide⟩

/-- C4 (amended): for every record `extractMetadata` returns, if
`video_found` is false all video-specific fields keep their defaults;
if `audio_found` is false, or no `'<number> Hz'` token matches anywhere,
`audio_fps` is Python `None` (the parse's absent value, which replaces
the dataclass's `'unknown'` sentinel) — none of this is an error. -/
theorem metadata_defaults_invariant (filename : String) (lines : List String)
    (alt : ℚ × ℕ) (fs : String) (meta : VideoMetaData)
    (hm : ffmpeg_parse_infos filename lines alt fs = .ok meta) :
    (meta.video_found = false →
      meta.video_fps = none ∧ meta.video_n_frames = none ∧ meta.video_duration = none
      ∧ meta.video_rotation = 0 ∧ meta.video_size = none)
    ∧ (meta.audio_found = false → meta.audio_fps = .pynone)
    ∧ ((∀ l ∈ lines, hzSearch l.data = none) → meta.audio_fps = .pynone) := by
  unfold ffmpeg_parse_infos at hm
  split at hm
  · simp at hm
  · split at hm
    · simp only [Except.ok.injEq] at hm
      subst hm
      exact ⟨fun _ => ⟨rfl, rfl, rfl, rfl, rfl⟩,
        fun hf => parse_audio_not_found lines _ _ rfl hf,
        fun hz => parse_audio_no_hz lines _ _ rfl hz⟩
    · repeat' split at hm
      all_goals try simp only [reduceCtorEq] at hm
      all_goals
        simp only [Except.ok.injEq] at hm
        subst hm
        exact ⟨fun hf => by simp at hf,
          fun hf => parse_audio_not_found lines _ _ (by assumption) hf,
          fun hz => parse_audio_no_hz lines _ _ (by assumption) hz⟩

/-- Witness for C4's theorem: a record with audio present but no Hz
token, and no video. -/
theorem metadata_defaults_instance :
    (⟨some 0, none, false, none, none, none, 0, none, true, .pynone⟩
        : VideoMetaData).video_fps = none
    ∧ (⟨some 0, none, false, none, none, none, 0, none, true, .pynone⟩
        : VideoMetaData).audio_fps = .pynone :=
  ⟨((metadata_defaults_invariant "w.mp4" ["Duration: N/A", " Audio: pcm"] (1, 1)
      "tbr" _ (by decide)).1 rfl).1,
   (metadata_defaults_invariant "w.mp4" ["Duration: N/A", " Audio: pcm"] (1, 1)
      "tbr" _ (by decide)).2.2 (by decide)⟩

theorem takeWhile_all_append (p : Char → Bool) (ds : List Char) (c : Char)
    (r : List Char) (h : ds.all p = true) (hc : p c = false) :
    (ds ++ c :: r).takeWhile p = ds := by
  induction ds with
  | nil => simp [List.takeWhile_cons, hc]
  | cons a as ih =>
      simp only [List.all_cons, Bool.and_eq_true] at h
      simp [List.takeWhile_cons, h.1, ih h.2]

theorem drop_append_cons (ds : List Char) (c : Char) (es : List Char) :
    (ds ++ c :: es).drop (ds.length + 1) = es := by
  induction ds with
  | nil => rfl
  | cons a as ih =>
      simp only [List.cons_append, List.length_cons, List.drop_succ_cons]
      exact ih

theorem dropWhile_space_of_digits (l : List Char) (h : l.all Char.isDigit = true) :
    l.dropWhile (· = ' ') = l := by
  cases l with
  | nil => rfl
  | cons a as =>
      simp only [List.all_cons, Bool.and_eq_true] at h
      rw [List.dropWhile_cons, if_neg]
      simp only [decide_eq_true_eq]
      intro ha
      subst ha
      exact absurd h.1 (by decide)

theorem all_digits_reverse (l : List Char) (h : l.all Char.isDigit = true) :
    l.reverse.all Char.isDigit = true := by
  simp only [List.all_eq_true] at h ⊢
  intro c hc
  exact h c (List.mem_reverse.mp hc)

theorem pyIntStrip_digits (ds : List Char) (hne : ds ≠ [])
    (h : ds.all Char.isDigit = true) : pyIntStrip ds = some (digitsVal ds) := by
  simp only [pyIntStrip]
  rw [dropWhile_space_of_digits ds h,
    dropWhile_space_of_digits ds.reverse (all_digits_reverse ds h),
    List.reverse_reverse, if_pos ⟨hne, h⟩]

theorem pyIntStrip_space_digits (ds : List Char) (hne : ds ≠ [])
    (h : ds.all Char.isDigit = true) :
    pyIntStrip (' ' :: ds) = some (digitsVal ds) := by
  have hstep : (' ' :: ds).dropWhile (· = ' ') = ds.dropWhile (· = ' ') := by
    simp [List.dropWhile_cons]
  simp only [pyIntStrip, hstep]
  rw [dropWhile_space_of_digits ds h,
    dropWhile_space_of_digits ds.reverse (all_digits_reverse ds h),
    List.reverse_reverse, if_pos ⟨hne, h⟩]

theorem searchSizeSpan_append (p s : List Char)
    (h : ∀ i, i < p.length → matchSizeAt ((p ++ s).drop i) = none) :
    searchSizeSpan (p ++ s) = searchSizeSpan s := by
  induction p with
  | nil => rfl
  | cons c p ih =>
      have h0 := h 0 (by simp)
      rw [List.drop_zero, List.cons_append] at h0
      rw [List.cons_append]
      simp only [searchSizeSpan]
      rw [h0]
      exact ih (fun i hi => by
        have hd := h (i + 1) (by simpa using Nat.succ_lt_succ hi)
        rwa [List.cons_append, List.drop_succ_cons] at hd)

theorem matchSizeAt_token (ds es rest : List Char) (t : Char)
    (hts : t = ',' ∨ t = ' ') (hds : ds.all Char.isDigit = true)
    (hes : es.all Char.isDigit = true) :
    matchSizeAt (' ' :: (ds ++ 'x' :: (es ++ t :: rest)))
      = some (' ' :: ds ++ 'x' :: es ++ [t]) := by
  have ht : Char.isDigit t = false := by rcases hts with rfl | rfl <;> decide
  have hx : (ds ++ 'x' :: (es ++ t :: rest)).takeWhile Char.isDigit = ds :=
    takeWhile_all_append _ ds 'x' _ hds (by decide)
  have he : (es ++ t :: rest).takeWhile Char.isDigit = es :=
    takeWhile_all_append _ es t _ hes ht
  simp only [matchSizeAt, hx, List.drop_left, he, if_pos hts]

/-- C7 counterexample: a line matching the video-line detection pattern
whose `WIDTHxHEIGHT` token ends the line (no comma/space terminator)
makes `parse_video_size` raise the fatal I/O error instead of returning
the pair. -/
theorem video_size_unterminated_token_error :
    isVideoLine " Video: 640x480" = true
    ∧ isErr (parse_video_size " Video: 640x480") = true := by
  refine ⟨by decide, by decide⟩

/-- C7 (amended): `parse_video_size` returns exactly the `(width,height)`
pair of the first `' WIDTHxHEIGHT'` token that is terminated by a comma
or a space — independent of which of the two terminators — and raises a
fatal I/O error whenever its size pattern does not match, which can
happen even on a line that passes the video-line detection (e.g. a token
at end of line). -/
theorem parse_video_size_behaviour :
    (∀ (p rest ds es : List Char) (t : Char),
      (t = ',' ∨ t = ' ') → ds ≠ [] → es ≠ [] →
      ds.all Char.isDigit = true → es.all Char.isDigit = true →
      (∀ i, i < p.length →
        matchSizeAt ((p ++ ' ' :: (ds ++ 'x' :: (es ++ t :: rest))).drop i) = none) →
      parse_video_size (String.mk (p ++ ' ' :: (ds ++ 'x' :: (es ++ t :: rest))))
        = .ok (digitsVal ds, digitsVal es))
    ∧ (∀ line : String, searchSizeSpan line.data = none →
        isErr (parse_video_size line) = true) := by
  constructor
  · intro p rest ds es t hts hdsne hesne hds hes hnone
    have hsearch : searchSizeSpan (p ++ ' ' :: (ds ++ 'x' :: (es ++ t :: rest)))
        = some (' ' :: ds ++ 'x' :: es ++ [t]) := by
      rw [searchSizeSpan_append p _ hnone]
      simp only [searchSizeSpan]
      rw [matchSizeAt_token ds es rest t hts hds hes]
    have hspan : (' ' :: ds ++ 'x' :: es ++ [t])
        = (' ' :: ds ++ 'x' :: es) ++ [t] := by
      simp [List.append_assoc]
    have hbody : (' ' :: ds ++ 'x' :: es ++ [t]).dropLast = ' ' :: ds ++ 'x' :: es := by
      rw [hspan, List.dropLast_concat]
    have hs0 : (' ' :: ds ++ 'x' :: es).takeWhile (fun c => c ≠ 'x') = ' ' :: ds := by
      rw [List.cons_append, List.takeWhile_cons_of_pos (by decide)]
      congr 1
      refine takeWhile_all_append _ ds 'x' es ?_ (by simp)
      rw [List.all_eq_true] at hds ⊢
      intro c hc
      simp only [decide_eq_true_eq]
      intro hcx
      subst hcx
      exact absurd (hds 'x' hc) (by decide)
    have hs1 : (' ' :: ds ++ 'x' :: es).drop
        ((' ' :: ds).length + 1) = es := by
      rw [List.cons_append, List.length_cons, List.drop_succ_cons]
      exact drop_append_cons ds 'x' es
    simp only [parse_video_size, hsearch, hbody, hs0, hs1]
    rw [pyIntStrip_space_digits ds hdsne hds, pyIntStrip_digits es hesne hes]
  · intro line h
    unfold parse_video_size
    rw [h]
    rfl

/-- Witness for C7's theorem at a concrete comma-terminated line. -/
theorem parse_video_size_instance :
    parse_video_size (String.mk (" Video:".data
        ++ ' ' :: ("640".data ++ 'x' :: ("480".data ++ ',' :: " 25 fps".data))))
      = .ok (digitsVal "640".data, digitsVal "480".data)
    ∧ digitsVal "640".data = 640 ∧ digitsVal "480".data = 480 :=
  ⟨parse_video_size_behaviour.1 " Video:".data " 25 fps".data "640".data
      "480".data ',' (Or.inl rfl) (by decide) (by decide) (by decide) (by decide)
      (by decide),
   by decide, by decide⟩

theorem dur_16_40 :
    parse_duration false
      ["Duration: 00:16:40.00",
       "  Stream #0:0: Video: h264, 1920x1080, 23.98 tbr"] = .ok 1000 := by
  have e : parse_duration false
      ["Duration: 00:16:40.00",
       "  Stream #0:0: Video: h264, 1920x1080, 23.98 tbr"]
      = .ok ((digitsVal ['0', '0'] : ℚ) * 3600 + (digitsVal ['1', '6'] : ℚ) * 60
             + (digitsVal ['4', '0'] : ℚ) + (digitsVal ['0', '0'] : ℚ) / 100) := rfl
  rw [e, show digitsVal ['0', '0'] = 0 from by decide,
    show digitsVal ['1', '6'] = 16 from by decide,
    show digitsVal ['4', '0'] = 40 from by decide]
  norm_num

theorem tbrline_get_tbr :
    get_tbr "  Stream #0:0: Video: h264, 1920x1080, 23.98 tbr"
      = some (2398 / 100) := by
  have e : get_tbr "  Stream #0:0: Video: h264, 1920x1080, 23.98 tbr"
      = some ((digitsVal ['2', '3'] : ℚ) + (digitsVal ['9', '8'] : ℚ) / 10 ^ 2) := rfl
  rw [e, show digitsVal ['2', '3'] = 23 from by decide,
    show digitsVal ['9', '8'] = 98 from by decide]
  norm_num

theorem tbrline_fps :
    parse_video_fps "  Stream #0:0: Video: h264, 1920x1080, 23.98 tbr" "tbr"
      = .ok (2398 / 100) := by
  rw [parse_video_fps_tbr_eq, tbrline_get_tbr,
    if_pos ⟨by simp [pyTruthy], by simp only [pyVal]; norm_num⟩]
  simp [pyVal]

theorem adjust_2398 : adjust_fps (2398 / 100) = 24 * (1000 / 1001) := by
  rw [show adjust_fps (2398 / 100)
      = adjust_fps_loop (1000 / 1001) (2398 / 100) ([23] ++ 24 :: [25, 30, 50])
      from rfl]
  refine adjust_loop_first _ _ [23] [25, 30, 50] 24 ?_ ⟨by norm_num, ?_⟩
  · intro a ha
    fin_cases ha
    rintro ⟨-, hr⟩
    rw [roughly_window _ _ (by norm_num)] at hr
    norm_num at hr
  · rw [roughly_window _ _ (by norm_num)]
    norm_num

theorem trunc_raw : pyTrunc ((1000 : ℚ) * (2398 / 100)) + 1 = 23981 := by
  rw [show (1000 : ℚ) * (2398 / 100) = ((23980 : ℤ) : ℚ) by norm_num]
  unfold pyTrunc
  rw [if_pos (by norm_num), Int.floor_intCast]
  norm_num

theorem trunc_adjusted : pyTrunc ((1000 : ℚ) * (24000 / 1001)) + 1 = 23977 := by
  have hf : ⌊((1000 : ℚ) * (24000 / 1001))⌋ = 23976 := by
    rw [Int.floor_eq_iff]
    constructor <;> norm_num
  unfold pyTrunc
  rw [if_pos (by norm_num), hf]
  norm_num

/-- C10: in the duration-known path, `video_n_frames` is
`int(duration * r) + 1` for the raw rate `r` from `parse_video_fps`,
while the returned `video_fps` is `adjust_fps r`; consequently, at an
input where the correction snaps `r` (23.98 ↦ 24000/1001), the stored
frame count does not equal `int(duration * video_fps) + 1` recomputed
from the returned rate. -/
theorem n_frames_uses_raw_fps :
    (∀ (filename : String) (lines : List String) (alt : ℚ × ℕ) (fs : String)
       (d r : ℚ) (lv : String) (rest : List String) (sz : ℕ × ℕ),
      parse_duration (endsWithB (".gif".data) filename.data) lines = .ok d →
      d ≠ 0 →
      lines.filter isVideoLine = lv :: rest →
      parse_video_fps lv fs = .ok r →
      parse_video_size lv = .ok sz →
      ∃ meta, ffmpeg_parse_infos filename lines alt fs = .ok meta
        ∧ meta.video_n_frames = some (pyTrunc (d * r) + 1)
        ∧ meta.video_fps = some (adjust_fps r))
    ∧ (∃ meta, ffmpeg_parse_infos "v.mp4"
          ["Duration: 00:16:40.00",
           "  Stream #0:0: Video: h264, 1920x1080, 23.98 tbr"] (1, 1) "tbr"
          = .ok meta
        ∧ meta.video_n_frames = some 23981
        ∧ meta.video_fps = some (24000 / 1001)
        ∧ meta.video_n_frames ≠ some (pyTrunc ((1000 : ℚ) * (24000 / 1001)) + 1)) := by
  have hgen : ∀ (filename : String) (lines : List String) (alt : ℚ × ℕ)
      (fs : String) (d r : ℚ) (lv : String) (rest : List String) (sz : ℕ × ℕ),
      parse_duration (endsWithB (".gif".data) filename.data) lines = .ok d →
      d ≠ 0 →
      lines.filter isVideoLine = lv :: rest →
      parse_video_fps lv fs = .ok r →
      parse_video_size lv = .ok sz →
      ∃ meta, ffmpeg_parse_infos filename lines alt fs = .ok meta
        ∧ meta.video_n_frames = some (pyTrunc (d * r) + 1)
        ∧ meta.video_fps = some (adjust_fps r) := by
    intro filename lines alt fs d r lv rest sz h1 h2 h3 h4 h5
    obtain ⟨rot, hrot⟩ := parse_rotation_total lines
    refine ⟨⟨some d, none, true, some (adjust_fps r), some (pyTrunc (d * r) + 1),
      some d, rot, some sz, (parse_audio_infos lines).1,
      (parse_audio_infos lines).2⟩, ?_, rfl, rfl⟩
    simp only [ffmpeg_parse_infos, h1, h3]
    rw [if_neg h2, h4, h5, hrot]
  refine ⟨hgen, ?_⟩
  obtain ⟨meta, hmeta, hn, hf⟩ := hgen "v.mp4"
    ["Duration: 00:16:40.00",
     "  Stream #0:0: Video: h264, 1920x1080, 23.98 tbr"]
    (1, 1) "tbr" 1000 (2398 / 100)
    "  Stream #0:0: Video: h264, 1920x1080, 23.98 tbr" [] (1920, 1080)
    dur_16_40 (by norm_num) (by decide) tbrline_fps (by decide)
  refine ⟨meta, hmeta, ?_, ?_, ?_⟩
  · rw [hn, trunc_raw]
  · rw [hf, adjust_2398]
    norm_num
  · rw [hn, trunc_raw, trunc_adjusted]
    decide

/-- Witness for C10's theorem: the extraction on the 23.98-tbr input
succeeds. -/
theorem n_frames_uses_raw_fps_instance :
    isErr (ffmpeg_parse_infos "v.mp4"
      ["Duration: 00:16:40.00",
       "  Stream #0:0: Video: h264, 1920x1080, 23.98 tbr"] (1, 1) "tbr") = false := by
  obtain ⟨meta, hmeta, -, -⟩ := n_frames_uses_raw_fps.1 "v.mp4"
    ["Duration: 00:16:40.00",
     "  Stream #0:0: Video: h264, 1920x1080, 23.98 tbr"]
    (1, 1) "tbr" 1000 (2398 / 100)
    "  Stream #0:0: Video: h264, 1920x1080, 23.98 tbr" [] (1920, 1080)
    dur_16_40 (by norm_num) (by decide) tbrline_fps (by decide)
  rw [hmeta]
  rfl

/-- Witness for C1's theorem at a concrete image (EXIF orientation 6)
and a concrete 3-channel decoded buffer. -/
theorem exif_rotate_mapping_instance :
    rotate (.source "photo.jpg" [(274, 6)])
      = .rotated 270 true (.source "photo.jpg" [(274, 6)])
    ∧ (imageClipInit (.arr3 2 2 3 (fun _ _ _ => 7)) false true false none).img
      = NDArray.arr3 2 2 3 (fun _ _ _ => 7) :=
  ⟨(exif_rotate_defined_but_unused_in_init.1
      (.source "photo.jpg" [(274, 6)])).2.2.1 (by decide) (by decide),
   exif_rotate_defined_but_unused_in_init.2 2 2 3 (fun _ _ _ => 7) none (by decide)⟩

end MoviePy
